import Mathlib

/-!
Shallow embedding of the RHD-Estimation backend's catalog / estimation core
(`app/crud.py`, `app/services/parsers.py`, `app/routers/items.py`).

Numeric values that the Python code handles as `float` are modelled as exact
rationals (`ℚ`); every concrete input used in a theorem below is a dyadic or
two-decimal value on which Python's binary floats and the rationals agree
exactly.  Nullable columns and optional payload fields are `Option`s; the
database session is explicit state passing.
-/

namespace RHD

/-- Python `x or d` for an optional string: `None` and `""` are falsy. -/
def pyOrStr (x : Option String) (d : String) : String :=
  match x with
  | none => d
  | some s => if s = "" then d else s

/-- Python `x or d` for an optional rational (`None` and `0.0` are falsy). -/
def pyOrQ (x : Option ℚ) (d : ℚ) : ℚ :=
  match x with
  | none => d
  | some v => if v = 0 then d else v

/-- Python whitespace characters (the ones relevant to `str.strip()`). -/
def pyWs (c : Char) : Bool := c = ' ' ∨ c = '\t' ∨ c = '\n' ∨ c = '\r'

/-- Python `str.strip()`: drop whitespace from both ends. -/
def pyStrip (s : String) : String :=
  ⟨((s.data.dropWhile pyWs).reverse.dropWhile pyWs).reverse⟩

/-- Python `str.lower()`. -/
def pyLower (s : String) : String :=
  ⟨s.data.map Char.toLower⟩

/-- Round a rational to the nearest integer, ties to even (banker's
rounding, which is what CPython's `round` implements on floats). -/
def pyRoundInt (x : ℚ) : ℤ :=
  if x - ⌊x⌋ > 1/2 then ⌊x⌋ + 1
  else if x - ⌊x⌋ < 1/2 then ⌊x⌋
  else if ⌊x⌋ % 2 = 0 then ⌊x⌋ else ⌊x⌋ + 1

/-- Python `round(x, 2)` on a value that is exact in binary floating point:
round to the nearest multiple of 1/100, ties to the even multiple. -/
def pyRound2 (q : ℚ) : ℚ := (pyRoundInt (q * 100) : ℚ) / 100

/-- Rounding half-up to 2 decimal places, as the specification's words
("Rounding is half-up to 2 decimal places") describe it. -/
def roundHalfUp2 (q : ℚ) : ℚ := ((⌊q * 100 + 1/2⌋ : ℤ) : ℚ) / 100

/-- `crud.calculate_qty`: the quantity override wins; otherwise start from
`no_of_units or 1` and multiply by each non-null dimension. -/
def calculate_qty (no_of_units length width thickness quantity : Option ℚ) : ℚ :=
  match quantity with
  | some q => q
  | none =>
    let qty := pyOrQ no_of_units 1
    let qty := match length with | none => qty | some l => qty * l
    let qty := match width with | none => qty | some w => qty * w
    match thickness with | none => qty | some t => qty * t

/-- The quantity rule as §4.3 of the specification words it: override wins,
else `no_of_units` (default 1 when null or zero) times the product of the
non-null dimensions. -/
def specCalcQty (no_of_units length width thickness quantity : Option ℚ) : ℚ :=
  match quantity with
  | some q => q
  | none =>
    let base : ℚ := match no_of_units with
      | none => 1
      | some u => if u = 0 then 1 else u
    base * (([length, width, thickness].filterMap id).foldl (· * ·) 1)

/-- A catalog item row (`models.Item`). -/
structure CatItem where
  item_id : ℤ
  division_id : ℤ
  item_code : String
  item_description : String
  unit : Option String
  rate : Option ℚ
  region : String
  organization : String
deriving Repr, DecidableEq

/-- `crud.get_item_rate`: the referenced item's (nullable) rate, or `None`
when no such item exists. -/
def get_item_rate (items : List CatItem) (item_id : ℤ) : Option ℚ :=
  match items.find? (fun it => it.item_id = item_id) with
  | none => none
  | some it => it.rate

/-- Payload `schemas.EstimationLineCreate` (used for both create and update). -/
structure LinePayload where
  item_id : ℤ
  sub_description : Option String
  no_of_units : ℤ
  length : Option ℚ
  width : Option ℚ
  thickness : Option ℚ
  length_expr : Option String
  width_expr : Option String
  thickness_expr : Option String
  quantity : Option ℚ
  attachment_name : Option String
  attachment_base64 : Option String
deriving Repr, DecidableEq

/-- A stored estimation line (`models.EstimationLine`). -/
structure EstLine where
  line_id : ℤ
  estimation_id : ℤ
  item_id : ℤ
  sub_description : Option String
  no_of_units : ℤ
  length : Option ℚ
  width : Option ℚ
  thickness : Option ℚ
  length_expr : Option String
  width_expr : Option String
  thickness_expr : Option String
  quantity : Option ℚ
  calculated_qty : ℚ
  rate : Option ℚ
  amount : Option ℚ
  attachment_name : Option String
  attachment_base64 : Option String
deriving Repr, DecidableEq

/-- Python `n or 1` on the integer `no_of_units` payload field. -/
def pyOrUnits (n : ℤ) : ℤ := if n = 0 then 1 else n

/-- `crud.create_estimation_line` (the computed fields; `line_id` is the
fresh primary key supplied by the store). -/
def create_estimation_line (items : List CatItem) (line_id estimation_id : ℤ)
    (data : LinePayload) : EstLine :=
  -- line_rate = get_item_rate(db, data.item_id) or 0.0
  let line_rate : ℚ := pyOrQ (get_item_rate items data.item_id) 0
  let calc_qty : ℚ :=
    calculate_qty (some (data.no_of_units : ℚ)) data.length data.width data.thickness
      data.quantity
  -- `if line_rate is not None` is always true here: `or 0.0` yielded a float
  let amount : Option ℚ := some (pyRound2 (calc_qty * line_rate))
  { line_id := line_id
    estimation_id := estimation_id
    item_id := data.item_id
    sub_description := data.sub_description
    no_of_units := pyOrUnits data.no_of_units
    length := data.length
    width := data.width
    thickness := data.thickness
    length_expr := data.length_expr
    width_expr := data.width_expr
    thickness_expr := data.thickness_expr
    quantity := data.quantity
    calculated_qty := calc_qty
    rate := some line_rate
    amount := amount
    attachment_name := data.attachment_name
    attachment_base64 := data.attachment_base64 }

/-- `crud.update_estimation_line` on an existing line (the not-found branch
returns `None` in the source and is handled by the caller). -/
def update_estimation_line (items : List CatItem) (line : EstLine)
    (data : LinePayload) : EstLine :=
  -- if data.item_id and data.item_id != line.item_id: move the line to the
  -- new item and re-snapshot the rate; otherwise both fields are untouched
  let newItemId : ℤ :=
    if data.item_id ≠ 0 ∧ data.item_id ≠ line.item_id then data.item_id else line.item_id
  let newRate : Option ℚ :=
    if data.item_id ≠ 0 ∧ data.item_id ≠ line.item_id then
      some (pyOrQ (get_item_rate items data.item_id) 0)
    else line.rate
  -- recalculate from the (possibly new) dimensions; the stored
  -- no_of_units has already been coerced through `or 1`
  let calcq : ℚ :=
    calculate_qty (some ((pyOrUnits data.no_of_units : ℤ) : ℚ)) data.length data.width
      data.thickness data.quantity
  -- amount = round(qty * rate, 2) if line.rate is not None else None
  let amount : Option ℚ :=
    match newRate with
    | some r => some (pyRound2 (calcq * r))
    | none => none
  { line with
    item_id := newItemId
    rate := newRate
    sub_description := data.sub_description
    no_of_units := pyOrUnits data.no_of_units
    length := data.length
    width := data.width
    thickness := data.thickness
    length_expr := data.length_expr
    width_expr := data.width_expr
    thickness_expr := data.thickness_expr
    quantity := data.quantity
    attachment_name := data.attachment_name
    attachment_base64 := data.attachment_base64
    calculated_qty := calcq
    amount := amount }

/-! ## Special item workflow (`models.SpecialItemRequest`, `crud.approve/reject`) -/

/-- A special item request row (`models.SpecialItemRequest`). -/
structure SpecialRequest where
  request_id : ℤ
  estimation_id : ℤ
  division_id : ℤ
  item_description : String
  unit : Option String
  rate : Option ℚ
  region : String
  organization : String
  item_code : Option String
  attachment_name : Option String
  attachment_base64 : Option String
  sub_description : Option String
  no_of_units : ℤ
  length : Option ℚ
  width : Option ℚ
  thickness : Option ℚ
  length_expr : Option String
  width_expr : Option String
  thickness_expr : Option String
  quantity : Option ℚ
  status : String
  reason : Option String
  requested_by_id : ℤ
  reviewed_by_id : Option ℤ
  item_id : Option ℤ
  special_item_id : Option ℤ
  line_id : Option ℤ
  reviewed_at : Option ℤ
deriving Repr, DecidableEq

/-- An immutable special item snapshot row (`models.SpecialItem`). -/
structure SpecialItemRec where
  special_item_id : ℤ
  item_id : ℤ
  division_id : ℤ
  item_code : String
  item_description : String
  unit : Option String
  rate : Option ℚ
  region : String
  organization : String
deriving Repr, DecidableEq

/-- The store visible to the special item workflow, with fresh-id counters
standing in for autoincrement primary keys. -/
structure WfState where
  items : List CatItem
  special_items : List SpecialItemRec
  lines : List EstLine
  requests : List SpecialRequest
  nextItemId : ℤ
  nextSpecialId : ℤ
  nextLineId : ℤ
deriving Repr, DecidableEq

/-- `db.get(models.SpecialItemRequest, request_id)`. -/
def find_request (s : WfState) (rid : ℤ) : Option SpecialRequest :=
  s.requests.find? (fun r => r.request_id = rid)

/-- `crud.create_special_item_from_item`: snapshot the item and commit. -/
def create_special_item_from_item (s : WfState) (item : CatItem) :
    WfState × SpecialItemRec :=
  let sp : SpecialItemRec :=
    { special_item_id := s.nextSpecialId
      item_id := item.item_id
      division_id := item.division_id
      item_code := item.item_code
      item_description := item.item_description
      unit := item.unit
      rate := item.rate
      region := item.region
      organization := item.organization }
  ({ s with special_items := s.special_items ++ [sp], nextSpecialId := s.nextSpecialId + 1 }, sp)

/-- `crud.create_estimation_line` called on the workflow store: build the
line from the current catalog and commit it. -/
def add_estimation_line (s : WfState) (estimation_id : ℤ) (data : LinePayload) :
    WfState × EstLine :=
  let line := create_estimation_line s.items s.nextLineId estimation_id data
  ({ s with lines := s.lines ++ [line], nextLineId := s.nextLineId + 1 }, line)

/-- The `EstimationLineCreate` payload that `approve_special_item_request`
builds from the request's dimensional inputs. -/
def requestLinePayload (req : SpecialRequest) (item_id : ℤ) : LinePayload :=
  { item_id := item_id
    sub_description := req.sub_description
    no_of_units := req.no_of_units
    length := req.length
    width := req.width
    thickness := req.thickness
    length_expr := req.length_expr
    width_expr := req.width_expr
    thickness_expr := req.thickness_expr
    quantity := req.quantity
    attachment_name := req.attachment_name
    attachment_base64 := req.attachment_base64 }

/-- The `models.Item` that approval inserts (`item_code = req.item_code or
f"SP-{timestamp}"`; `now` stands for the wall-clock timestamp). -/
def mkApprovedItem (s : WfState) (req : SpecialRequest) (now : ℤ) : CatItem :=
  { item_id := s.nextItemId
    division_id := req.division_id
    item_code := pyOrStr req.item_code ("SP-" ++ toString now)
    item_description := req.item_description
    unit := req.unit
    rate := req.rate
    region := req.region
    organization := req.organization }

/-- `crud.approve_special_item_request`: guard on the pending status, then
insert the item, snapshot it, create the line, and mark the request
approved — each of the four writes followed by its own `db.commit()`. -/
def approve_special_item_request (s : WfState) (rid reviewer_id now : ℤ) :
    WfState × Option SpecialRequest :=
  match find_request s rid with
  | none => (s, none)
  | some req =>
    if req.status ≠ "pending" then (s, some req)
    else
      let item := mkApprovedItem s req now
      let s1 := { s with items := s.items ++ [item], nextItemId := s.nextItemId + 1 }
      let step2 := create_special_item_from_item s1 item
      let step3 := add_estimation_line step2.1 req.estimation_id
        (requestLinePayload req item.item_id)
      let req' := { req with
        status := "approved"
        reviewed_by_id := some reviewer_id
        reviewed_at := some now
        item_id := some item.item_id
        special_item_id := some step2.2.special_item_id
        line_id := some step3.2.line_id }
      let s4 := { step3.1 with
        requests := step3.1.requests.map
          (fun r => if r.request_id = req.request_id then req' else r) }
      (s4, some req')

/-- The durable store after the first `commits` of the four `db.commit()`
calls inside `approve_special_item_request` have run (a failure between
commits leaves exactly one of these states behind, since there is no
enclosing transaction). -/
def approve_durable (s : WfState) (rid reviewer_id now : ℤ) (commits : ℕ) : WfState :=
  match find_request s rid with
  | none => s
  | some req =>
    if req.status ≠ "pending" then s
    else
      let item := mkApprovedItem s req now
      let s1 := { s with items := s.items ++ [item], nextItemId := s.nextItemId + 1 }
      let step2 := create_special_item_from_item s1 item
      let step3 := add_estimation_line step2.1 req.estimation_id
        (requestLinePayload req item.item_id)
      let req' := { req with
        status := "approved"
        reviewed_by_id := some reviewer_id
        reviewed_at := some now
        item_id := some item.item_id
        special_item_id := some step2.2.special_item_id
        line_id := some step3.2.line_id }
      let s4 := { step3.1 with
        requests := step3.1.requests.map
          (fun r => if r.request_id = req.request_id then req' else r) }
      match commits with
      | 0 => s
      | 1 => s1
      | 2 => step2.1
      | 3 => step3.1
      | _ => s4

/-- `crud.reject_special_item_request`. -/
def reject_special_item_request (s : WfState) (rid reviewer_id now : ℤ)
    (reason : Option String) : WfState × Option SpecialRequest :=
  match find_request s rid with
  | none => (s, none)
  | some req =>
    if req.status ≠ "pending" then (s, some req)
    else
      let req' := { req with
        status := "rejected"
        reviewed_by_id := some reviewer_id
        reviewed_at := some now
        reason := reason }
      ({ s with
        requests := s.requests.map
          (fun r => if r.request_id = req.request_id then req' else r) }, some req')

/-! ## Catalog import (`crud.create_item_from_parsed_data`) -/

/-- A parsed catalog row (`schemas.ItemParsed`). -/
structure ItemParsed where
  division : String
  item_code : String
  item_description : String
  unit : Option String
  rate : Option ℚ
  region : String
  organization : Option String
deriving Repr, DecidableEq

/-- A division row (`models.Division`; the organization link plays no role
in lookups, which are global by name). -/
structure DivisionRec where
  division_id : ℤ
  name : String
deriving Repr, DecidableEq

/-- The catalog store: organizations by name, regions per organization,
divisions, and items, with autoincrement counters. -/
structure CatalogDB where
  orgs : List String
  regions : List (String × String)
  divisions : List DivisionRec
  items : List CatItem
  nextDivisionId : ℤ
  nextItemId : ℤ
deriving Repr, DecidableEq

/-- `crud.get_division_by_name` (name-only lookup, as the importer uses it). -/
def get_division_by_name (db : CatalogDB) (name : String) : Option DivisionRec :=
  db.divisions.find? (fun d => d.name = name)

/-- The business-key predicate on items: does the item carry this
(item_code, region, organization) triple? -/
def matchesTriple (code region org : String) (it : CatItem) : Bool :=
  it.item_code = code ∧ it.region = region ∧ it.organization = org

/-- `crud.get_item_by_code_region_org`. -/
def get_item_by_code_region_org (db : CatalogDB) (code region org : String) :
    Option CatItem :=
  db.items.find? (matchesTriple code region org)

/-- The placeholder tokens rejected by the importer's validation. -/
def isPlaceholder (s : String) : Bool :=
  pyLower s = "none" ∨ pyLower s = "null" ∨ pyLower s = "-"

/-- The organization / region / division resolution stage of
`crud.create_item_from_parsed_data`: find-or-create the organization by
name, register the region for it if new, and find-or-create the division
(globally by name). -/
def resolveOrgRegionDivision (db : CatalogDB) (row : ItemParsed) :
    CatalogDB × DivisionRec :=
  let org_name := pyOrStr row.organization "RHD"
  -- find-or-create the organization by name
  let orgs1 := if db.orgs.contains org_name then db.orgs else db.orgs ++ [org_name]
  -- ensure the region exists for the organization (if item_data.region:);
  -- the organization step does not touch the region table
  let regions2 := if row.region ≠ "" ∧ ¬ db.regions.contains (org_name, row.region) then
      db.regions ++ [(org_name, row.region)]
    else db.regions
  let db2 := { db with orgs := orgs1, regions := regions2 }
  -- find-or-create the division, globally by name
  match get_division_by_name db2 row.division with
  | some d => (db2, d)
  | none =>
    let d : DivisionRec := { division_id := db2.nextDivisionId, name := row.division }
    let db' := { db2 with
      divisions := db2.divisions ++ [d]
      nextDivisionId := db2.nextDivisionId + 1 }
    (db', d)

/-- `crud.create_item_from_parsed_data`: validate, find-or-create the
organization, region and division, then upsert the item by its business
key.  The `IntegrityError` raised by the store's `uq_item_code_region_org`
unique constraint on a duplicate insert is the error case. -/
def create_item_from_parsed_data (db : CatalogDB) (row : ItemParsed) :
    Except String (CatalogDB × CatItem) :=
  let code_clean := pyStrip row.item_code
  let desc_clean := pyStrip row.item_description
  if code_clean = "" ∧ desc_clean = "" then
    .error "Empty item row: missing both code and description"
  else if isPlaceholder code_clean ∨ isPlaceholder desc_clean then
    .error "Invalid placeholder values for item code/description"
  else
    let org_name := pyOrStr row.organization "RHD"
    let divPair := resolveOrgRegionDivision db row
    let db3 := divPair.1
    let division := divPair.2
    match get_item_by_code_region_org db3 row.item_code row.region org_name with
    | some existing =>
      -- update the existing item in place
      let updated := { existing with
        item_description := row.item_description
        unit := row.unit
        rate := row.rate
        division_id := division.division_id
        organization := org_name }
      let db4 :=
        { db3 with
          items := db3.items.map
            (fun it => if it.item_id = existing.item_id then updated else it) }
      .ok (db4, updated)
    | none =>
      if db3.items.any (matchesTriple code_clean row.region org_name) then
        .error "IntegrityError: uq_item_code_region_org"
      else
        let it : CatItem :=
          { item_id := db3.nextItemId
            division_id := division.division_id
            item_code := code_clean, item_description := desc_clean
            unit := row.unit, rate := row.rate
            region := row.region, organization := org_name }
        let db4 :=
          { db3 with items := db3.items ++ [it], nextItemId := db3.nextItemId + 1 }
        .ok (db4, it)

/-- One upsert as the batch importer runs it: on an error the session is
rolled back and the store is unchanged. -/
def importRow (db : CatalogDB) (row : ItemParsed) : CatalogDB :=
  match create_item_from_parsed_data db row with
  | .ok p => p.1
  | .error _ => db

/-! ## CSV parsers (`app/services/parsers.py`) and the import endpoint
(`app/routers/items.py`) -/

/-- A CSV file as `csv.DictReader` presents it: the header row, and each
data row as a header→cell mapping. -/
structure CSVTable where
  headers : List String
  rows : List (List (String × String))
deriving Repr, DecidableEq

end RHD

deriving instance DecidableEq for Except

namespace RHD

/-- `clean_str` from the parsers: strip, and collapse the placeholder
tokens `none`/`null`/`-` (case-insensitively) to the empty string; a
missing cell reads as the empty string. -/
def clean_str (v : Option String) : String :=
  match v with
  | none => ""
  | some s =>
    let s := pyStrip s
    if pyLower s = "none" ∨ pyLower s = "null" ∨ pyLower s = "-" then "" else s

/-- `clean_unit` from the parsers: like `clean_str` but empty collapses to
`None`. -/
def clean_unit (v : Option String) : Option String :=
  match v with
  | none => none
  | some s =>
    let s := pyStrip s
    if s = "" ∨ pyLower s = "none" ∨ pyLower s = "null" ∨ pyLower s = "-" then none
    else some s

/-- The numeric value of a digit string. -/
def digitsVal (l : List Char) : ℕ :=
  l.foldl (fun acc c => acc * 10 + (c.toNat - 48)) 0

/-- Python `float()` on the plain decimal literals that occur in rate
cells (optional sign, digits, optional fraction); anything else is the
`ValueError` case, `none`.  (Scientific notation and the named floats are
out of scope: no rate cell in the claims uses them.) -/
def pyFloat? (s : String) : Option ℚ :=
  let t := (pyStrip s).data
  let core : List Char := match t with
    | '-' :: rest => rest
    | '+' :: rest => rest
    | l => l
  let sign : ℤ := match t with
    | '-' :: _ => -1
    | _ => 1
  let intPart := core.takeWhile Char.isDigit
  let rest := core.dropWhile Char.isDigit
  match rest with
  | [] =>
    if intPart = [] then none
    else some (mkRat (sign * (digitsVal intPart : ℤ)) 1)
  | '.' :: frac =>
    if frac.all Char.isDigit ∧ (intPart ≠ [] ∨ frac ≠ []) then
      some (mkRat (sign * ((digitsVal intPart : ℤ) * (10 : ℤ) ^ frac.length +
        (digitsVal frac : ℤ))) ((10 : ℕ) ^ frac.length))
    else none
  | _ => none

/-- A rate cell: `float(v)` unless the cell is missing, empty or `"-"`;
an unparsable cell also collapses to no rate. -/
def parseRateCell (v : Option String) : Option ℚ :=
  match v with
  | none => none
  | some s => if s = "" ∨ s = "-" then none else pyFloat? s

/-- `parsers.ITEM_MASTER_HEADERS`. -/
def ITEM_MASTER_HEADERS : List String :=
  ["Division", "Item Code", "Description", "Unit", "Rate", "Region"]

/-- `parsers.parse_item_master_csv_text` (the linear parser): validate the
fixed header set, then emit one row per CSV row, silently dropping rows
with no code and no description.  Note: the `Region` cell is only
`clean_str`-cleaned, never alias-normalized. -/
def parse_item_master_csv_text (t : CSVTable) : Except String (List ItemParsed) :=
  let missing := ITEM_MASTER_HEADERS.filter (fun h => ¬ t.headers.contains h)
  if missing ≠ [] then
    .error ("Missing expected headers in Item Master CSV: " ++ toString missing)
  else
    .ok (t.rows.filterMap (fun r =>
      let entry : ItemParsed :=
        { division := clean_str (r.lookup "Division")
          item_code := clean_str (r.lookup "Item Code")
          item_description := clean_str (r.lookup "Description")
          unit := clean_unit (r.lookup "Unit")
          rate := parseRateCell (r.lookup "Rate")
          region := clean_str (r.lookup "Region")
          organization := none }
      if entry.item_code = "" ∧ entry.item_description = "" then none else some entry))

/-- Header resolution in the pivot parser: the first synonym that matches
some header after strip+lowercase normalization wins; for duplicate
normalized headers the last original wins (Python dict comprehension). -/
def resolve_header (headers : List String) (cands : List String) : Option String :=
  cands.findSome? (fun cand => (headers.filter (fun h => pyLower (pyStrip h) = cand)).getLast?)

/-- The missing-base-header report of the pivot parser, in the dict's
insertion order. -/
def pivot_missing (headers : List String) : List String :=
  (if resolve_header headers ["item code", "code", "itemcode", "item"] = none then
    ["Item Code"] else []) ++
  (if resolve_header headers ["major division", "Division", "division name"] = none then
    ["Major Division"] else []) ++
  (if resolve_header headers ["description", "item description", "desc"] = none then
    ["Description"] else []) ++
  (if resolve_header headers ["unit", "units"] = none then ["Unit"] else [])

/-- `parsers.parse_item_master_pivot_csv_text`: resolve the base columns
through synonyms, treat every other header as a region column (renaming
the `Cumilla Zone` header to `Comilla Zone`), and emit one row per CSV row
per region column.  The rate is still fetched under the renamed header, so
a `Cumilla Zone` column's rates read as missing — faithful to the code. -/
def parse_item_master_pivot_csv_text (t : CSVTable) :
    Except String (List ItemParsed) :=
  let item_code_h := resolve_header t.headers ["item code", "code", "itemcode", "item"]
  let division_h := resolve_header t.headers ["major division", "Division", "division name"]
  let description_h := resolve_header t.headers ["description", "item description", "desc"]
  let unit_h := resolve_header t.headers ["unit", "units"]
  let org_h := resolve_header t.headers ["organization", "org", "organisation"]
  let si_h := resolve_header t.headers ["si. no", "si no", "serial", "sl", "sl."]
  if pivot_missing t.headers ≠ [] then
    .error ("Missing expected base headers in pivot Item Master CSV: " ++
      toString (pivot_missing t.headers))
  else
    let base_set := [item_code_h, division_h, description_h, unit_h]
    let optional_set := [si_h, org_h]
    let region_headers :=
      (t.headers.filter (fun h =>
        ¬ base_set.contains (some h) ∧ ¬ optional_set.contains (some h))).map
        (fun h => if h = "Cumilla Zone" then "Comilla Zone" else h)
    .ok (t.rows.flatMap (fun r =>
      let division := clean_str (division_h.bind (fun h => r.lookup h))
      let item_code := clean_str (item_code_h.bind (fun h => r.lookup h))
      let description := clean_str (description_h.bind (fun h => r.lookup h))
      let unit := clean_unit (unit_h.bind (fun h => r.lookup h))
      let organization :=
        let c := clean_str (org_h.bind (fun h => r.lookup h))
        if c = "" then "RHD" else c
      if item_code = "" ∧ description = "" then []
      else region_headers.map (fun region =>
        { division := division, item_code := item_code
          item_description := description, unit := unit
          rate := parseRateCell (r.lookup region)
          region := region, organization := some organization })))

/-- The CSV branch of `import_items`' format dispatch: try the linear
parser; on any failure fall back to the pivoted parser, whose own failure
(not the linear parser's) propagates to the caller. -/
def import_parse_csv (t : CSVTable) : Except String (List ItemParsed) :=
  match parse_item_master_csv_text t with
  | .ok rows => .ok rows
  | .error _e1 => parse_item_master_pivot_csv_text t

/-- The outcome record returned by `import_items` (append mode). -/
structure ImportOutcome where
  processed : ℕ
  skipped : ℕ
  errors : List String
  db : CatalogDB
deriving Repr, DecidableEq

/-- The upsert loop of `import_items`: rows with a missing rate are
counted as skipped; failing rows are rolled back, counted in the error
report, and the batch continues. -/
def import_rows (db : CatalogDB) (rows : List ItemParsed) : ImportOutcome :=
  (rows.enum.map (fun p => (p.1 + 1, p.2))).foldl
    (fun acc pr =>
      match pr.2.rate with
      | none => { acc with skipped := acc.skipped + 1 }
      | some _ =>
        match create_item_from_parsed_data acc.db pr.2 with
        | .ok p => { acc with processed := acc.processed + 1, db := p.1 }
        | .error e =>
          let msg := if e = "IntegrityError: uq_item_code_region_org" then
              "Row " ++ toString pr.1 ++ " (" ++ pr.2.item_code ++ "): " ++ e
            else "Row " ++ toString pr.1 ++ ": " ++ e
          { acc with errors := acc.errors ++ [msg] })
    { processed := 0, skipped := 0, errors := [], db := db }

/-- `import_items` on a CSV upload in append mode: parse (with the
linear→pivot fallback), then upsert row by row. -/
def import_items_csv (db : CatalogDB) (t : CSVTable) : Except String ImportOutcome :=
  (import_parse_csv t).map (import_rows db)

/-! ## Pivot export (`export_items_csv` grouping) -/

/-- One output row of the pivot export. -/
structure PivotRow where
  item_code : String
  division_name : String
  description : String
  unit : String
  organization : String
  rates : List (String × Option ℚ)
deriving Repr, DecidableEq

/-- `it.division.name if it.division else ""`. -/
def divisionName (divs : List DivisionRec) (id : ℤ) : String :=
  match divs.find? (fun d => d.division_id = id) with
  | some d => d.name
  | none => ""

/-- Python dict update on the per-row rates mapping. -/
def upsertAssoc (l : List (String × Option ℚ)) (k : String) (v : Option ℚ) :
    List (String × Option ℚ) :=
  if l.any (fun p => p.1 = k) then
    l.map (fun p => if p.1 = k then (k, v) else p)
  else l ++ [(k, v)]

/-- One iteration of the grouping loop of `export_items_csv`: place the
item's rate under its (normalized) region column in the row for its
(division_id, item_code, organization) group, creating the group if new. -/
def exportStep (divs : List DivisionRec)
    (acc : List ((ℤ × String × String) × PivotRow)) (it : CatItem) :
    List ((ℤ × String × String) × PivotRow) :=
  let org := if it.organization = "" then "RHD" else it.organization
  let key : ℤ × String × String := (it.division_id, it.item_code, org)
  -- normalize region name to match the requested header spelling
  let region := if it.region = "Cumilla Zone" then "Comilla Zone" else it.region
  if acc.any (fun p => p.1 = key) then
    acc.map (fun p =>
      if p.1 = key then (key, { p.2 with rates := upsertAssoc p.2.rates region it.rate })
      else p)
  else
    acc ++ [(key,
      { item_code := it.item_code
        division_name := divisionName divs it.division_id
        description := it.item_description
        unit := pyOrStr it.unit ""
        organization := org
        rates := [(region, it.rate)] })]

/-- The grouping loop of `export_items_csv`: group items by
(division_id, item_code, organization) in first-seen order, normalizing a
stored `Cumilla Zone` region to the `Comilla Zone` rate column. -/
def exportGroup (divs : List DivisionRec) (items : List CatItem) :
    List ((ℤ × String × String) × PivotRow) :=
  items.foldl (exportStep divs) []

/-! ## Concrete inputs used in the theorems below -/

/-- An item priced at 1/8 (0.125, exactly representable in binary floating
point), used to separate half-up rounding from the code's rounding. -/
def tieItem : CatItem :=
  { item_id := 1, division_id := 1, item_code := "X-1", item_description := "d"
    unit := some "m", rate := some (1/8), region := "Dhaka Zone", organization := "RHD" }

/-- A payload with an explicit quantity override of 1 referencing `tieItem`. -/
def tiePayload : LinePayload :=
  { item_id := 1, sub_description := none, no_of_units := 1
    length := none, width := none, thickness := none
    length_expr := none, width_expr := none, thickness_expr := none
    quantity := some 1, attachment_name := none, attachment_base64 := none }

/-- A stored line referencing item 1 with a snapshotted rate of 5. -/
def frameLine : EstLine :=
  { line_id := 1, estimation_id := 1, item_id := 1, sub_description := none
    no_of_units := 1, length := some 2, width := none, thickness := none
    length_expr := none, width_expr := none, thickness_expr := none
    quantity := none, calculated_qty := 2, rate := some 5, amount := some 10
    attachment_name := none, attachment_base64 := none }

/-- An update payload keeping the line on item 1. -/
def framePayloadSame : LinePayload :=
  { item_id := 1, sub_description := none, no_of_units := 3
    length := some 7, width := none, thickness := none
    length_expr := none, width_expr := none, thickness_expr := none
    quantity := none, attachment_name := none, attachment_base64 := none }

/-- An update payload moving the line to item 2. -/
def framePayloadMove : LinePayload :=
  { framePayloadSame with item_id := 2 }

/-- A pending special item request, used as C1's failing input. -/
def pendingRequest : SpecialRequest :=
  { request_id := 1, estimation_id := 1, division_id := 1
    item_description := "special work", unit := some "m", rate := some 5
    region := "Dhaka Zone", organization := "RHD", item_code := some "SP-123"
    attachment_name := none, attachment_base64 := none, sub_description := none
    no_of_units := 1, length := none, width := none, thickness := none
    length_expr := none, width_expr := none, thickness_expr := none
    quantity := some 2, status := "pending", reason := none
    requested_by_id := 7, reviewed_by_id := none, item_id := none
    special_item_id := none, line_id := none, reviewed_at := none }

/-- A store holding just `pendingRequest`. -/
def pendingState : WfState :=
  { items := [], special_items := [], lines := [], requests := [pendingRequest]
    nextItemId := 1, nextSpecialId := 1, nextLineId := 1 }

/-- A request already in the approved state, with its forward references. -/
def approvedRequest : SpecialRequest :=
  { pendingRequest with
    status := "approved", reviewed_by_id := some 9, reviewed_at := some 1000
    item_id := some 1, special_item_id := some 1, line_id := some 1 }

/-- A store holding just `approvedRequest`. -/
def approvedState : WfState :=
  { items := [mkApprovedItem pendingState pendingRequest 1000]
    special_items := [], lines := [], requests := [approvedRequest]
    nextItemId := 2, nextSpecialId := 2, nextLineId := 2 }

/-- A clean, valid parsed row used to witness the import theorems. -/
def sampleRow : ItemParsed :=
  { division := "Div-1", item_code := "X-1", item_description := "desc"
    unit := some "m", rate := some 5, region := "Dhaka Zone", organization := none }

/-- An empty catalog store. -/
def emptyCatalog : CatalogDB :=
  { orgs := [], regions := [], divisions := [], items := []
    nextDivisionId := 1, nextItemId := 1 }

/-- A linear-format CSV whose only row has item code `-` and an empty
description. -/
def dashTable : CSVTable :=
  { headers := ["Division", "Item Code", "Description", "Unit", "Rate", "Region"]
    rows := [[("Division", "D"), ("Item Code", "-"), ("Description", ""),
      ("Unit", "m"), ("Rate", "5"), ("Region", "R")]] }

/-- The parsed row of `witnessTable`, used to witness C7 and C8. -/
def witnessRow : ItemParsed :=
  { division := "D", item_code := "X", item_description := "d"
    unit := some "m", rate := none, region := "R", organization := none }

/-- A linear CSV with one normal row (rate cell `-`). -/
def witnessTable : CSVTable :=
  { headers := ["Division", "Item Code", "Description", "Unit", "Rate", "Region"]
    rows := [[("Division", "D"), ("Item Code", "X"), ("Description", "d"),
      ("Unit", "m"), ("Rate", "-"), ("Region", "R")]] }

/-- A linear CSV whose rows are all blank after cleaning. -/
def blankTable : CSVTable :=
  { headers := ["Division", "Item Code", "Description", "Unit", "Rate", "Region"]
    rows := [[("Division", "D"), ("Item Code", "null"), ("Description", " - "),
      ("Unit", "m"), ("Rate", "5"), ("Region", "R")]] }

/-- A CSV recognized by neither parser. -/
def badTable : CSVTable := { headers := ["Foo"], rows := [] }

/-- A pivot-format CSV (not recognized by the linear parser). -/
def pivotOnly : CSVTable :=
  { headers := ["Item Code", "Major Division", "Description", "Unit", "Dhaka Zone"]
    rows := [[("Item Code", "X"), ("Major Division", "D"), ("Description", "d"),
      ("Unit", "m"), ("Dhaka Zone", "-")]] }

/-- The row the pivoted parser emits for `pivotOnly`. -/
def pivotOnlyRow : ItemParsed :=
  { division := "D", item_code := "X", item_description := "d"
    unit := some "m", rate := none, region := "Dhaka Zone", organization := some "RHD" }

/-- A linear CSV whose Region cell uses the legacy `Cumilla Zone`
spelling. -/
def cumillaLinear : CSVTable :=
  { headers := ["Division", "Item Code", "Description", "Unit", "Rate", "Region"]
    rows := [[("Division", "D"), ("Item Code", "X"), ("Description", "d"),
      ("Unit", "m"), ("Rate", "-"), ("Region", "Cumilla Zone")]] }

/-- An item stored with the legacy `Cumilla Zone` region spelling. -/
def cumillaItem : CatItem :=
  { item_id := 1, division_id := 1, item_code := "X", item_description := "d"
    unit := some "m", rate := some 5, region := "Cumilla Zone", organization := "RHD" }

/-- The pivot-export row produced for `cumillaItem`. -/
def cumillaPivotRow : PivotRow :=
  { item_code := "X", division_name := "", description := "d", unit := "m"
    organization := "RHD", rates := [("Comilla Zone", some 5)] }

/-! ## Theorems -/

/-- C2: the line quantity calculation: a non-null `quantity` override wins;
otherwise `no_of_units` (taken as 1 when null or zero) is multiplied by each
non-null dimension among length, width, thickness.  In particular
`no_of_units=2, length=3, width=4, thickness=null, quantity=null` gives 24,
and `quantity=10` with other dims set gives 10. -/
theorem C2_calculate_qty_spec :
    (∀ u l w t q, calculate_qty u l w t q = specCalcQty u l w t q) ∧
    calculate_qty (some 2) (some 3) (some 4) none none = 24 ∧
    calculate_qty (some 2) (some 3) (some 4) (some 5) (some 10) = 10 := by
  refine ⟨?_, ?_, ?_⟩
  · intro u l w t q
    cases q with
    | some q => simp [calculate_qty, specCalcQty]
    | none =>
      have hbase : pyOrQ u 1 = (match u with
          | none => (1 : ℚ)
          | some v => if v = 0 then 1 else v) := rfl
      cases l <;> cases w <;> cases t <;>
        simp [calculate_qty, specCalcQty, hbase, List.filterMap, List.foldl] <;>
        ring
  · norm_num [calculate_qty, pyOrQ]
  · norm_num [calculate_qty]

/-- C3 counterexample: the claim says the stored amount is the product
rounded *half-up*.  For calculated_qty = 1 and rate = 0.125 the code stores
0.12 (`round` ties to even), while half-up gives 0.13. -/
theorem C3_counterexample :
    (create_estimation_line [tieItem] 1 1 tiePayload).calculated_qty = 1 ∧
    (create_estimation_line [tieItem] 1 1 tiePayload).rate = some (1/8) ∧
    (create_estimation_line [tieItem] 1 1 tiePayload).amount = some (12/100) ∧
    roundHalfUp2 (1 * (1/8)) = 13/100 ∧
    ((12 : ℚ)/100) ≠ 13/100 := by
  have hrate : get_item_rate [tieItem] 1 = some (1/8) := rfl
  have hq : calculate_qty (some ((1:ℤ) : ℚ)) none none none (some 1) = 1 := rfl
  have hOr : pyOrQ (some ((1:ℚ)/8)) 0 = 1/8 := by norm_num [pyOrQ]
  refine ⟨rfl, ?_, ?_, ?_, by norm_num⟩
  · show some (pyOrQ (get_item_rate [tieItem] tiePayload.item_id) 0) = some (1/8)
    rw [show tiePayload.item_id = 1 from rfl, hrate, hOr]
  · show some (pyRound2 (calculate_qty (some ((1:ℤ) : ℚ)) none none none (some 1) *
        pyOrQ (get_item_rate [tieItem] tiePayload.item_id) 0)) = some (12/100)
    rw [show tiePayload.item_id = 1 from rfl, hrate, hOr, hq, pyRound2, pyRoundInt]
    norm_num
  · rw [roundHalfUp2]
    norm_num

/-- C3 (amended): the stored amount is `calculated_qty * rate` rounded to 2
decimals with ties to even (CPython `round`), not half-up; on create the
rate factor is the item rate coerced through `or 0.0`, on update the stored
amount is null exactly when the line's stored rate is null.  The concrete
example of the claim holds: 24 * 12.345 rounds to 296.28. -/
theorem C3_amount_rule :
    (∀ items line_id eid data,
      (create_estimation_line items line_id eid data).amount =
        some (pyRound2 ((create_estimation_line items line_id eid data).calculated_qty *
          pyOrQ (get_item_rate items data.item_id) 0))) ∧
    (∀ items line data,
      (update_estimation_line items line data).amount =
        Option.map (fun r => pyRound2 ((update_estimation_line items line data).calculated_qty * r))
          (update_estimation_line items line data).rate) ∧
    pyRound2 (24 * (12345/1000)) = 29628/100 := by
  refine ⟨fun items line_id eid data => rfl, ?_, ?_⟩
  · intro items line data
    simp only [update_estimation_line]
    by_cases h : data.item_id ≠ 0 ∧ data.item_id ≠ line.item_id
    · rw [if_pos h]
      simp
    · rw [if_neg h]
      cases h' : line.rate <;> simp [h']
  · rw [pyRound2, pyRoundInt]
    norm_num

/-- C4: updating a line with a payload whose `item_id` equals the line's
current one leaves the stored rate unchanged; the rate is re-snapshotted
(from the referenced item's current rate, via `or 0.0`) exactly when the
line's item reference actually changes. -/
theorem C4_rate_frame (items : List CatItem) (line : EstLine) (data : LinePayload) :
    (data.item_id = line.item_id →
      (update_estimation_line items line data).rate = line.rate ∧
      (update_estimation_line items line data).item_id = line.item_id) ∧
    ((update_estimation_line items line data).item_id = line.item_id →
      (update_estimation_line items line data).rate = line.rate) ∧
    ((update_estimation_line items line data).item_id ≠ line.item_id →
      (update_estimation_line items line data).item_id = data.item_id ∧
      (update_estimation_line items line data).rate =
        some (pyOrQ (get_item_rate items data.item_id) 0)) := by
  by_cases h : data.item_id ≠ 0 ∧ data.item_id ≠ line.item_id
  · refine ⟨fun heq => absurd heq h.2, ?_, ?_⟩
    · intro hid
      exact absurd (show (update_estimation_line items line data).item_id = data.item_id by
        simp only [update_estimation_line]; rw [if_pos h]) (by rw [hid]; exact fun e => h.2 e.symm)
    · intro _
      constructor
      · simp only [update_estimation_line]; rw [if_pos h]
      · simp only [update_estimation_line]; rw [if_pos h]
  · have hid : (update_estimation_line items line data).item_id = line.item_id := by
      simp only [update_estimation_line]; rw [if_neg h]
    have hrate : (update_estimation_line items line data).rate = line.rate := by
      simp only [update_estimation_line]; rw [if_neg h]
    exact ⟨fun _ => ⟨hrate, hid⟩, fun _ => hrate, fun hne => absurd hid hne⟩

theorem C4_rate_frame_witness :
    (update_estimation_line [] frameLine framePayloadSame).rate = frameLine.rate ∧
    (update_estimation_line [] frameLine framePayloadMove).rate =
      some (pyOrQ (get_item_rate [] 2) 0) :=
  ⟨((C4_rate_frame [] frameLine framePayloadSame).1 (by decide)).1,
   ((C4_rate_frame [] frameLine framePayloadMove).2.2 (by decide)).2⟩

/-- `round(0, 2) = 0`. -/
theorem pyRound2_zero : pyRound2 0 = 0 := by
  rw [pyRound2, pyRoundInt]; norm_num

/-- C10: a created estimation line never stores a null rate or a null
amount: the item's rate goes through `or 0.0`, so a null (or zero) item
rate is stored as rate 0.0 with amount 0.0. -/
theorem C10_create_line_rate_amount (items : List CatItem) (lid eid : ℤ)
    (data : LinePayload) :
    (∃ r, (create_estimation_line items lid eid data).rate = some r) ∧
    (∃ a, (create_estimation_line items lid eid data).amount = some a) ∧
    ((get_item_rate items data.item_id = none ∨ get_item_rate items data.item_id = some 0) →
      (create_estimation_line items lid eid data).rate = some 0 ∧
      (create_estimation_line items lid eid data).amount = some 0) := by
  refine ⟨⟨_, rfl⟩, ⟨_, rfl⟩, fun h => ?_⟩
  have hr : pyOrQ (get_item_rate items data.item_id) 0 = 0 := by
    rcases h with h | h <;> rw [h] <;> simp [pyOrQ]
  constructor
  · show some (pyOrQ (get_item_rate items data.item_id) 0) = some 0
    rw [hr]
  · show some (pyRound2 (calculate_qty (some ((data.no_of_units : ℤ) : ℚ)) data.length
        data.width data.thickness data.quantity *
        pyOrQ (get_item_rate items data.item_id) 0)) = some 0
    rw [hr, mul_zero, pyRound2_zero]

theorem C10_create_line_rate_amount_witness :
    (create_estimation_line [] 1 1 framePayloadSame).rate = some 0 ∧
    (create_estimation_line [] 1 1 framePayloadSame).amount = some 0 :=
  (C10_create_line_rate_amount [] 1 1 framePayloadSame).2.2 (Or.inl (by decide))

/-- C1: approval is NOT all-or-nothing.  Each of the four writes is
followed by its own `db.commit()`, so a failure after the second commit
(e.g. while creating the estimation line) leaves a committed Item and
SpecialItem behind while the request is still pending and has no forward
references — exactly the partial state the claim rules out. -/
theorem C1_approve_not_atomic :
    (approve_durable pendingState 1 9 1000 2).items.length = 1 ∧
    (approve_durable pendingState 1 9 1000 2).special_items.length = 1 ∧
    (approve_durable pendingState 1 9 1000 2).lines = [] ∧
    (find_request (approve_durable pendingState 1 9 1000 2) 1).map (fun r => r.status) =
      some "pending" ∧
    approve_durable pendingState 1 9 1000 2 ≠ pendingState ∧
    approve_durable pendingState 1 9 1000 0 = pendingState := by
  refine ⟨rfl, rfl, rfl, rfl, ?_, rfl⟩
  intro h
  exact absurd (congrArg (fun s => s.items.length) h) (by decide)

/-- Replacing the (found) request with id `rid` in a request list makes a
subsequent lookup return the replacement. -/
theorem find?_replace_eq (reqs : List SpecialRequest) (rid : ℤ) (req req' : SpecialRequest)
    (h : reqs.find? (fun r => r.request_id = rid) = some req)
    (hid : req'.request_id = req.request_id) :
    (reqs.map (fun r => if r.request_id = req.request_id then req' else r)).find?
      (fun r => r.request_id = rid) = some req' := by
  induction reqs with
  | nil => simp at h
  | cons a tl ih =>
    rw [List.map_cons]
    by_cases ha : a.request_id = rid
    · rw [List.find?_cons_of_pos _ (by simpa using ha)] at h
      obtain rfl : a = req := by simpa using h
      rw [if_pos rfl]
      exact List.find?_cons_of_pos _ (by simpa [hid] using ha)
    · rw [List.find?_cons_of_neg _ (by simpa using ha)] at h
      have hq : req.request_id = rid := by simpa using List.find?_some h
      have hne : a.request_id ≠ req.request_id := fun e => ha (e.trans hq)
      rw [if_neg hne, List.find?_cons_of_neg _ (by simpa using ha)]
      exact ih h

/-- A successful approval of a pending request returns an approved request
with the same id, and the post state's lookup finds it. -/
theorem approve_pending_result (s : WfState) (rid r1 n1 : ℤ) (req : SpecialRequest)
    (hfind : find_request s rid = some req) (hst : req.status = "pending") :
    ∃ req', (approve_special_item_request s rid r1 n1).2 = some req' ∧
      req'.status = "approved" ∧ req'.request_id = req.request_id ∧
      find_request (approve_special_item_request s rid r1 n1).1 rid = some req' := by
  have hc : ¬(req.status ≠ "pending") := by simp [hst]
  simp only [approve_special_item_request, hfind, if_neg hc]
  refine ⟨_, rfl, rfl, rfl, ?_⟩
  exact find?_replace_eq s.requests rid req _ hfind rfl

theorem approve_pending_result_witness :
    ∃ req', (approve_special_item_request pendingState 1 9 1000).2 = some req' ∧
      req'.status = "approved" ∧ req'.request_id = pendingRequest.request_id ∧
      find_request (approve_special_item_request pendingState 1 9 1000).1 1 = some req' :=
  approve_pending_result pendingState 1 9 1000 pendingRequest (by decide) (by decide)

/-- C5: approve and reject are no-ops on a non-pending request — the store
is unchanged and the request is returned as it is — and a second approve
after a successful approve returns the already-approved request without
touching the store again. -/
theorem C5_terminal_noop :
    (∀ (s : WfState) (rid reviewer now : ℤ) (reason : Option String) (req : SpecialRequest),
      find_request s rid = some req → req.status ≠ "pending" →
        approve_special_item_request s rid reviewer now = (s, some req) ∧
        reject_special_item_request s rid reviewer now reason = (s, some req)) ∧
    (∀ (s : WfState) (rid r1 n1 r2 n2 : ℤ) (req : SpecialRequest),
      find_request s rid = some req → req.status = "pending" →
        approve_special_item_request (approve_special_item_request s rid r1 n1).1 rid r2 n2 =
          approve_special_item_request s rid r1 n1) := by
  constructor
  · intro s rid reviewer now reason req hfind hst
    constructor
    · simp only [approve_special_item_request, hfind, if_pos hst]
    · simp only [reject_special_item_request, hfind, if_pos hst]
  · intro s rid r1 n1 r2 n2 req hfind hst
    obtain ⟨req', h2, hstat, _, hfind'⟩ :=
      approve_pending_result s rid r1 n1 req hfind hst
    have hc2 : req'.status ≠ "pending" := by simp [hstat]
    rcases hp : approve_special_item_request s rid r1 n1 with ⟨s', r'⟩
    rw [hp] at h2 hfind'
    show approve_special_item_request s' rid r2 n2 = (s', r')
    have h2' : r' = some req' := h2
    have hfind2 : find_request s' rid = some req' := hfind'
    simp only [approve_special_item_request, hfind2, if_pos hc2]
    rw [h2']

theorem C5_terminal_noop_witness :
    (approve_special_item_request approvedState 1 11 2000 = (approvedState, some approvedRequest) ∧
      reject_special_item_request approvedState 1 11 2000 (some "no") =
        (approvedState, some approvedRequest)) ∧
    approve_special_item_request (approve_special_item_request pendingState 1 9 1000).1 1 11 2000 =
      approve_special_item_request pendingState 1 9 1000 :=
  ⟨C5_terminal_noop.1 approvedState 1 11 2000 (some "no") approvedRequest (by decide) (by decide),
   C5_terminal_noop.2 pendingState 1 9 1000 11 2000 pendingRequest (by decide) (by decide)⟩

/-! ### Stage lemmas for the importer -/

theorem resolve_items (db : CatalogDB) (row : ItemParsed) :
    (resolveOrgRegionDivision db row).1.items = db.items := by
  simp only [resolveOrgRegionDivision]
  split <;> rfl

theorem resolve_nextItemId (db : CatalogDB) (row : ItemParsed) :
    (resolveOrgRegionDivision db row).1.nextItemId = db.nextItemId := by
  simp only [resolveOrgRegionDivision]
  split <;> rfl

theorem resolve_division_mem (db : CatalogDB) (row : ItemParsed) :
    (resolveOrgRegionDivision db row).2 ∈ (resolveOrgRegionDivision db row).1.divisions ∧
    (resolveOrgRegionDivision db row).2.name = row.division := by
  simp only [resolveOrgRegionDivision]
  split
  · rename_i d hd
    constructor
    · exact List.mem_of_find?_eq_some hd
    · simpa using List.find?_some hd
  · constructor
    · simp
    · rfl

/-! ### List lemmas for the upsert argument -/

theorem find?_none_filter_nil (l : List CatItem) (p : CatItem → Bool)
    (h : l.find? p = none) : l.filter p = [] := by
  rw [List.filter_eq_nil_iff]
  exact fun a ha => by simpa using List.find?_eq_none.mp h a ha

/-- Splitting a list around an element whose primary key is unique. -/
theorem mem_nodup_ids_split (l : List CatItem) (e : CatItem)
    (hmem : e ∈ l) (hids : (l.map (fun it => it.item_id)).Nodup) :
    ∃ l1 l2, l = l1 ++ e :: l2 ∧
      (∀ x ∈ l1, x.item_id ≠ e.item_id) ∧ (∀ x ∈ l2, x.item_id ≠ e.item_id) := by
  induction l with
  | nil => cases hmem
  | cons a tl ih =>
    rw [List.map_cons, List.nodup_cons] at hids
    rcases List.mem_cons.mp hmem with rfl | hmem'
    · refine ⟨[], tl, rfl, by simp, ?_⟩
      intro x hx hEq
      exact hids.1 (hEq ▸ List.mem_map_of_mem _ hx)
    · obtain ⟨l1, l2, htl, h1, h2⟩ := ih hmem' hids.2
      refine ⟨a :: l1, l2, by rw [htl]; rfl, ?_, h2⟩
      intro x hx
      rcases List.mem_cons.mp hx with rfl | hx'
      · intro hEq
        exact hids.1 (hEq ▸ List.mem_map_of_mem _ hmem')
      · exact h1 x hx'

/-- Replacing by a key absent from the list is the identity. -/
theorem map_replace_id (m : List CatItem) (e u : CatItem)
    (hm : ∀ x ∈ m, x.item_id ≠ e.item_id) :
    m.map (fun it => if it.item_id = e.item_id then u else it) = m := by
  induction m with
  | nil => rfl
  | cons a tl ih =>
    rw [List.map_cons, if_neg (hm a (List.mem_cons_self a tl)),
      ih (fun x hx => hm x (List.mem_cons_of_mem a hx))]

/-- The in-place update path: replacing the unique match by `u` leaves a
list whose only match is `u`, with the same primary keys. -/
theorem upsert_update_shape (l : List CatItem) (e u : CatItem) (p : CatItem → Bool)
    (hfind : l.find? p = some e)
    (hids : (l.map (fun it => it.item_id)).Nodup)
    (hcount : l.countP p ≤ 1)
    (hu : p u = true) (hid : u.item_id = e.item_id) :
    (l.map (fun it => if it.item_id = e.item_id then u else it)).filter p = [u] ∧
    (l.map (fun it => if it.item_id = e.item_id then u else it)).countP p = 1 ∧
    (l.map (fun it => if it.item_id = e.item_id then u else it)).map
      (fun it => it.item_id) = l.map (fun it => it.item_id) := by
  have hmem := List.mem_of_find?_eq_some hfind
  have hpe : p e = true := List.find?_some hfind
  obtain ⟨l1, l2, rfl, h1, h2⟩ := mem_nodup_ids_split l e hmem hids
  have hcnt : l1.countP p + (l2.countP p + 1) ≤ 1 := by
    simpa [List.countP_append, List.countP_cons, hpe] using hcount
  have hc1 : l1.countP p = 0 := by omega
  have hc2 : l2.countP p = 0 := by omega
  have hf1 : l1.filter p = [] := by
    rw [List.filter_eq_nil_iff]
    exact fun a ha => by simpa using List.countP_eq_zero.mp hc1 a ha
  have hf2 : l2.filter p = [] := by
    rw [List.filter_eq_nil_iff]
    exact fun a ha => by simpa using List.countP_eq_zero.mp hc2 a ha
  have hmap : (l1 ++ e :: l2).map (fun it => if it.item_id = e.item_id then u else it) =
      l1 ++ u :: l2 := by
    rw [List.map_append, List.map_cons, if_pos rfl, map_replace_id l1 e u h1,
      map_replace_id l2 e u h2]
  refine ⟨?_, ?_, ?_⟩
  · rw [hmap, List.filter_append, hf1, List.filter_cons_of_pos hu, hf2]
    rfl
  · rw [hmap]
    simp [List.countP_append, List.countP_cons, hu, hc1, hc2]
  · rw [hmap, List.map_append, List.map_append, List.map_cons, List.map_cons, hid]

/-- The insert path: appending a fresh match to a list with no match. -/
theorem upsert_insert_shape (l : List CatItem) (u : CatItem) (p : CatItem → Bool)
    (hnone : l.find? p = none) (hu : p u = true) :
    ((l ++ [u]).filter p = [u]) ∧ (l ++ [u]).countP p = 1 := by
  have hf : l.filter p = [] := find?_none_filter_nil l p hnone
  have hc : l.countP p = 0 := by
    rw [List.countP_eq_zero]
    exact fun a ha => by simpa using List.find?_eq_none.mp hnone a ha
  constructor
  · rw [List.filter_append, hf, List.filter_cons_of_pos hu]
    rfl
  · simp [List.countP_append, List.countP_cons, hu, hc]

/-- The update path of the importer: a row whose raw business key is
already present updates that item in place. -/
theorem importRow_update_case (db : CatalogDB) (row : ItemParsed) (e : CatItem)
    (hv1 : ¬(pyStrip row.item_code = "" ∧ pyStrip row.item_description = ""))
    (hv2 : ¬(isPlaceholder (pyStrip row.item_code) = true ∨
      isPlaceholder (pyStrip row.item_description) = true))
    (hfound : db.items.find?
      (matchesTriple row.item_code row.region (pyOrStr row.organization "RHD")) = some e)
    (hids : (db.items.map (fun it => it.item_id)).Nodup)
    (hcount : db.items.countP
      (matchesTriple row.item_code row.region (pyOrStr row.organization "RHD")) ≤ 1) :
    ∃ u,
      (importRow db row).items.filter
        (matchesTriple row.item_code row.region (pyOrStr row.organization "RHD")) = [u] ∧
      (importRow db row).items.countP
        (matchesTriple row.item_code row.region (pyOrStr row.organization "RHD")) = 1 ∧
      (importRow db row).items.map (fun it => it.item_id) =
        db.items.map (fun it => it.item_id) ∧
      (importRow db row).nextItemId = db.nextItemId ∧
      u.item_description = row.item_description ∧ u.unit = row.unit ∧ u.rate = row.rate ∧
      (∃ d ∈ (importRow db row).divisions,
        d.division_id = u.division_id ∧ d.name = row.division) := by
  have h3 : get_item_by_code_region_org (resolveOrgRegionDivision db row).1
      row.item_code row.region (pyOrStr row.organization "RHD") = some e := by
    rw [get_item_by_code_region_org, resolve_items]
    exact hfound
  have hpe : matchesTriple row.item_code row.region (pyOrStr row.organization "RHD") e =
      true := List.find?_some hfound
  have hshape := upsert_update_shape db.items e
    { e with
      item_description := row.item_description
      unit := row.unit
      rate := row.rate
      division_id := (resolveOrgRegionDivision db row).2.division_id
      organization := pyOrStr row.organization "RHD" }
    (matchesTriple row.item_code row.region (pyOrStr row.organization "RHD"))
    hfound hids hcount
    (by
      simp only [matchesTriple, decide_eq_true_eq] at hpe ⊢
      exact ⟨hpe.1, hpe.2.1, trivial⟩)
    rfl
  simp only [importRow, create_item_from_parsed_data, if_neg hv1, if_neg hv2, h3]
  rw [resolve_items]
  exact ⟨_, hshape.1, hshape.2.1, hshape.2.2, resolve_nextItemId db row, rfl, rfl, rfl,
    ⟨(resolveOrgRegionDivision db row).2, (resolve_division_mem db row).1,
      rfl, (resolve_division_mem db row).2⟩⟩

/-- The insert path of the importer: a clean row whose business key is
absent inserts a fresh item carrying that key. -/
theorem importRow_insert_case (db : CatalogDB) (row : ItemParsed)
    (hv1 : ¬(pyStrip row.item_code = "" ∧ pyStrip row.item_description = ""))
    (hv2 : ¬(isPlaceholder (pyStrip row.item_code) = true ∨
      isPlaceholder (pyStrip row.item_description) = true))
    (hcode : pyStrip row.item_code = row.item_code)
    (hnone : db.items.find?
      (matchesTriple row.item_code row.region (pyOrStr row.organization "RHD")) = none) :
    (importRow db row).items = db.items ++
      [{ item_id := db.nextItemId
         division_id := (resolveOrgRegionDivision db row).2.division_id
         item_code := pyStrip row.item_code
         item_description := pyStrip row.item_description
         unit := row.unit, rate := row.rate
         region := row.region, organization := pyOrStr row.organization "RHD" }] ∧
    (importRow db row).items.countP
      (matchesTriple row.item_code row.region (pyOrStr row.organization "RHD")) = 1 ∧
    (importRow db row).nextItemId = db.nextItemId + 1 := by
  have hany : (db.items.any (matchesTriple (pyStrip row.item_code) row.region
      (pyOrStr row.organization "RHD"))) = false := by
    rw [hcode, List.any_eq_false]
    exact fun a ha => by simpa using List.find?_eq_none.mp hnone a ha
  have h3 : get_item_by_code_region_org (resolveOrgRegionDivision db row).1
      row.item_code row.region (pyOrStr row.organization "RHD") = none := by
    rw [get_item_by_code_region_org, resolve_items]
    exact hnone
  have hnew : matchesTriple row.item_code row.region (pyOrStr row.organization "RHD")
      { item_id := (resolveOrgRegionDivision db row).1.nextItemId
        division_id := (resolveOrgRegionDivision db row).2.division_id
        item_code := pyStrip row.item_code
        item_description := pyStrip row.item_description
        unit := row.unit, rate := row.rate
        region := row.region, organization := pyOrStr row.organization "RHD" } = true := by
    simp [matchesTriple, hcode]
  have hany' : ¬(db.items.any (matchesTriple (pyStrip row.item_code) row.region
      (pyOrStr row.organization "RHD")) = true) := by simp [hany]
  simp only [importRow, create_item_from_parsed_data, if_neg hv1, if_neg hv2, h3]
  rw [resolve_items, resolve_nextItemId, if_neg hany']
  refine ⟨rfl, ?_, rfl⟩
  have := (upsert_insert_shape db.items _ _ hnone (resolve_nextItemId db row ▸ hnew)).2
  exact this

/-- Appending an item with a fresh primary key keeps the keys distinct. -/
theorem nodup_append_fresh (l : List CatItem) (u : CatItem)
    (hids : (l.map (fun it => it.item_id)).Nodup)
    (hfresh : ∀ x ∈ l, x.item_id < u.item_id) :
    ((l ++ [u]).map (fun it => it.item_id)).Nodup := by
  rw [List.map_append, List.nodup_append]
  refine ⟨hids, List.nodup_singleton _, ?_⟩
  intro a ha hb
  obtain ⟨x, hx, rfl⟩ := List.mem_map.mp ha
  have : x.item_id = u.item_id := by simpa using hb
  exact absurd this (ne_of_lt (hfresh x hx))

theorem fresh_of_map_ids_eq (l l' : List CatItem) (n : ℤ)
    (hmap : l'.map (fun it => it.item_id) = l.map (fun it => it.item_id))
    (hfresh : ∀ x ∈ l, x.item_id < n) : ∀ y ∈ l', y.item_id < n := by
  intro y hy
  have hmem : y.item_id ∈ l.map (fun it => it.item_id) :=
    hmap ▸ List.mem_map_of_mem _ hy
  obtain ⟨x, hx, he⟩ := List.mem_map.mp hmem
  exact he ▸ hfresh x hx

/-- Replacing the unique item with key `e.item_id` by an item that agrees
with `e` on a predicate leaves the predicate's count unchanged. -/
theorem countP_map_replace (l : List CatItem) (e u : CatItem) (q : CatItem → Bool)
    (hmem : e ∈ l) (hids : (l.map (fun it => it.item_id)).Nodup)
    (hqe : q u = q e) :
    (l.map (fun it => if it.item_id = e.item_id then u else it)).countP q = l.countP q := by
  obtain ⟨l1, l2, rfl, h1, h2⟩ := mem_nodup_ids_split l e hmem hids
  rw [List.map_append, List.map_cons, if_pos rfl, map_replace_id l1 e u h1,
    map_replace_id l2 e u h2, List.countP_append, List.countP_append,
    List.countP_cons, List.countP_cons, hqe]

/-- What one importer step can do to the item table: nothing (a rejected
or conflicting row), an in-place update of the unique raw-key match, or an
append of a fresh item carrying the cleaned key. -/
theorem importRow_shape (db : CatalogDB) (row : ItemParsed) :
    importRow db row = db ∨
    (∃ e u, db.items.find?
        (matchesTriple row.item_code row.region (pyOrStr row.organization "RHD")) = some e ∧
      u.item_code = e.item_code ∧ u.region = e.region ∧
      u.organization = pyOrStr row.organization "RHD" ∧
      e.organization = pyOrStr row.organization "RHD" ∧
      u.item_id = e.item_id ∧
      (importRow db row).items =
        db.items.map (fun it => if it.item_id = e.item_id then u else it)) ∨
    (∃ u, (importRow db row).items = db.items ++ [u] ∧
      u.item_code = pyStrip row.item_code ∧ u.region = row.region ∧
      u.organization = pyOrStr row.organization "RHD" ∧ u.item_id = db.nextItemId ∧
      db.items.any (matchesTriple (pyStrip row.item_code) row.region
        (pyOrStr row.organization "RHD")) = false) := by
  by_cases hv1 : (pyStrip row.item_code = "" ∧ pyStrip row.item_description = "")
  · left
    simp only [importRow, create_item_from_parsed_data, if_pos hv1]
  · by_cases hv2 : (isPlaceholder (pyStrip row.item_code) = true ∨
      isPlaceholder (pyStrip row.item_description) = true)
    · left
      simp only [importRow, create_item_from_parsed_data, if_neg hv1, if_pos hv2]
    · cases hfind : db.items.find?
        (matchesTriple row.item_code row.region (pyOrStr row.organization "RHD")) with
      | some e =>
        right; left
        have h3 : get_item_by_code_region_org (resolveOrgRegionDivision db row).1
            row.item_code row.region (pyOrStr row.organization "RHD") = some e := by
          rw [get_item_by_code_region_org, resolve_items]
          exact hfind
        have hpe : matchesTriple row.item_code row.region (pyOrStr row.organization "RHD")
            e = true := List.find?_some hfind
        have heorg : e.organization = pyOrStr row.organization "RHD" := by
          simp only [matchesTriple, decide_eq_true_eq] at hpe
          exact hpe.2.2
        refine ⟨e, { e with
            item_description := row.item_description
            unit := row.unit
            rate := row.rate
            division_id := (resolveOrgRegionDivision db row).2.division_id
            organization := pyOrStr row.organization "RHD" },
          rfl, rfl, rfl, rfl, heorg, rfl, ?_⟩
        simp only [importRow, create_item_from_parsed_data, if_neg hv1, if_neg hv2, h3]
        rw [resolve_items]
      | none =>
        have h3 : get_item_by_code_region_org (resolveOrgRegionDivision db row).1
            row.item_code row.region (pyOrStr row.organization "RHD") = none := by
          rw [get_item_by_code_region_org, resolve_items]
          exact hfind
        by_cases hg : (db.items.any (matchesTriple (pyStrip row.item_code) row.region
            (pyOrStr row.organization "RHD")) = true)
        · left
          simp only [importRow, create_item_from_parsed_data, if_neg hv1, if_neg hv2, h3]
          rw [resolve_items, if_pos hg]
        · right; right
          refine
            ⟨{ item_id := db.nextItemId
               division_id := (resolveOrgRegionDivision db row).2.division_id
               item_code := pyStrip row.item_code
               item_description := pyStrip row.item_description
               unit := row.unit, rate := row.rate
               region := row.region, organization := pyOrStr row.organization "RHD" },
             ?_, rfl, rfl, rfl, rfl, by simpa using hg⟩
          simp only [importRow, create_item_from_parsed_data, if_neg hv1, if_neg hv2, h3]
          rw [resolve_items, resolve_nextItemId, if_neg hg]

/-- One importer step preserves "at most one item per business key"
for every (item_code, region, organization) triple. -/
theorem importRow_unique_triple (db : CatalogDB) (row : ItemParsed) (c r o : String)
    (hids : (db.items.map (fun it => it.item_id)).Nodup)
    (hq : db.items.countP (matchesTriple c r o) ≤ 1) :
    (importRow db row).items.countP (matchesTriple c r o) ≤ 1 := by
  rcases importRow_shape db row with hsame | ⟨e, u, hfind, hc, hr, ho, heo, hid, hitems⟩ |
    ⟨u, hitems, hc, hr, ho, _, hguard⟩
  · rw [hsame]
    exact hq
  · have hqe : matchesTriple c r o u = matchesTriple c r o e := by
      simp only [matchesTriple, hc, hr, ho, heo]
    rw [hitems, countP_map_replace db.items e u _ (List.mem_of_find?_eq_some hfind)
      hids hqe]
    exact hq
  · rw [hitems, List.countP_append]
    by_cases hqu : matchesTriple c r o u = true
    · have hcomp : pyStrip row.item_code = c ∧ row.region = r ∧
          pyOrStr row.organization "RHD" = o := by
        simp only [matchesTriple, decide_eq_true_eq] at hqu
        exact ⟨hc ▸ hqu.1, hr ▸ hqu.2.1, ho ▸ hqu.2.2⟩
      obtain ⟨rfl, rfl, rfl⟩ := hcomp
      have hzero : db.items.countP
          (matchesTriple (pyStrip row.item_code) row.region
            (pyOrStr row.organization "RHD")) = 0 := by
        rw [List.countP_eq_zero]
        intro a ha
        have := List.any_eq_false.mp (by simpa using hguard) a ha
        simpa using this
      simp [hzero, List.countP_cons, hqu]
    · have : matchesTriple c r o u = false := by simpa using hqu
      simp [List.countP_cons, this]
      omega

/-- C6: importing the same (parser-clean, valid) row twice leaves exactly
one item with that row's (item_code, region, organization) business key,
carrying the description, unit, rate and division of the last import (the
second import updates in place); and an importer step can never take a
business key from at-most-one to more-than-one occurrence. -/
theorem C6_upsert_idempotent :
    (∀ (db : CatalogDB) (row : ItemParsed),
      ¬(pyStrip row.item_code = "" ∧ pyStrip row.item_description = "") →
      ¬(isPlaceholder (pyStrip row.item_code) = true ∨
        isPlaceholder (pyStrip row.item_description) = true) →
      pyStrip row.item_code = row.item_code →
      (db.items.map (fun it => it.item_id)).Nodup →
      (∀ it ∈ db.items, it.item_id < db.nextItemId) →
      db.items.countP
        (matchesTriple row.item_code row.region (pyOrStr row.organization "RHD")) ≤ 1 →
      ∃ u, (importRow (importRow db row) row).items.filter
          (matchesTriple row.item_code row.region (pyOrStr row.organization "RHD")) = [u] ∧
        (importRow (importRow db row) row).items.countP
          (matchesTriple row.item_code row.region (pyOrStr row.organization "RHD")) = 1 ∧
        u.item_description = row.item_description ∧ u.unit = row.unit ∧ u.rate = row.rate ∧
        (∃ d ∈ (importRow (importRow db row) row).divisions,
          d.division_id = u.division_id ∧ d.name = row.division)) ∧
    (∀ (db : CatalogDB) (row : ItemParsed) (c r o : String),
      (db.items.map (fun it => it.item_id)).Nodup →
      db.items.countP (matchesTriple c r o) ≤ 1 →
      (importRow db row).items.countP (matchesTriple c r o) ≤ 1) := by
  constructor
  · intro db row hv1 hv2 hcode hids hfresh hcount
    -- after the first import the key occurs exactly once and ids stay distinct
    have hstep1 : (importRow db row).items.countP
        (matchesTriple row.item_code row.region (pyOrStr row.organization "RHD")) = 1 ∧
        ((importRow db row).items.map (fun it => it.item_id)).Nodup := by
      cases hfind : db.items.find?
          (matchesTriple row.item_code row.region (pyOrStr row.organization "RHD")) with
      | some e =>
        obtain ⟨u0, _, hcnt1, hmap1, _, _⟩ :=
          importRow_update_case db row e hv1 hv2 hfind hids hcount
        exact ⟨hcnt1, hmap1 ▸ hids⟩
      | none =>
        obtain ⟨hitems1, hcnt1, _⟩ := importRow_insert_case db row hv1 hv2 hcode hfind
        refine ⟨hcnt1, ?_⟩
        rw [hitems1]
        exact nodup_append_fresh db.items _ hids (fun x hx => hfresh x hx)
    -- the second import therefore finds the item and updates it in place
    have hpos : 0 < (importRow db row).items.countP
        (matchesTriple row.item_code row.region (pyOrStr row.organization "RHD")) := by
      rw [hstep1.1]
      exact Nat.one_pos
    obtain ⟨e1, he1, hpe1⟩ := List.countP_pos_iff.mp hpos
    obtain ⟨hfind1, -⟩ : (∃ e', (importRow db row).items.find?
        (matchesTriple row.item_code row.region (pyOrStr row.organization "RHD")) =
          some e') ∧ True := by
      refine ⟨?_, trivial⟩
      have := List.find?_isSome.mpr ⟨e1, he1, hpe1⟩
      exact Option.isSome_iff_exists.mp this
    obtain ⟨e', hfind'⟩ := hfind1
    obtain ⟨u, hfil, hcnt, _, _, hdesc, hunit, hrate, hdiv⟩ :=
      importRow_update_case (importRow db row) row e' hv1 hv2 hfind' hstep1.2
        (le_of_eq hstep1.1)
    exact ⟨u, hfil, hcnt, hdesc, hunit, hrate, hdiv⟩
  · intro db row c r o hids hq
    exact importRow_unique_triple db row c r o hids hq

theorem C6_upsert_idempotent_witness :
    (∃ u, (importRow (importRow emptyCatalog sampleRow) sampleRow).items.filter
        (matchesTriple sampleRow.item_code sampleRow.region
          (pyOrStr sampleRow.organization "RHD")) = [u] ∧
      (importRow (importRow emptyCatalog sampleRow) sampleRow).items.countP
        (matchesTriple sampleRow.item_code sampleRow.region
          (pyOrStr sampleRow.organization "RHD")) = 1 ∧
      u.item_description = sampleRow.item_description ∧ u.unit = sampleRow.unit ∧
      u.rate = sampleRow.rate ∧
      (∃ d ∈ (importRow (importRow emptyCatalog sampleRow) sampleRow).divisions,
        d.division_id = u.division_id ∧ d.name = sampleRow.division)) ∧
    (importRow emptyCatalog sampleRow).items.countP
      (matchesTriple "X-1" "Dhaka Zone" "RHD") ≤ 1 :=
  ⟨C6_upsert_idempotent.1 emptyCatalog sampleRow (by decide) (by decide) (by decide)
      (by decide) (by decide) (by decide),
   C6_upsert_idempotent.2 emptyCatalog sampleRow "X-1" "Dhaka Zone" "RHD"
      (by decide) (by decide)⟩

/-- C7 counterexample: the `-`/empty row is dropped by the parser before
the importer runs, so nothing is stored — but the import result reports
`skipped = 0` and no errors: the row is NOT counted, contrary to the
claim. -/
theorem C7_counterexample :
    parse_item_master_csv_text dashTable = .ok [] ∧
    import_items_csv emptyCatalog dashTable =
      .ok { processed := 0, skipped := 0, errors := [], db := emptyCatalog } := by
  exact ⟨by decide, by decide⟩

/-- C7 (amended): a row whose cleaned code and description are both empty
(e.g. code `-`, empty description) is silently dropped by the linear
parser — it is never emitted, nothing is stored for it, and it is not
counted in the import result's skipped or error report (the skipped
counter covers only emitted rows with a missing rate). -/
theorem C7_blank_row_skipped :
    (∀ (t : CSVTable) (rows : List ItemParsed),
      parse_item_master_csv_text t = .ok rows →
      ∀ r ∈ rows, ¬(r.item_code = "" ∧ r.item_description = "")) ∧
    (∀ (db : CatalogDB) (t : CSVTable),
      ITEM_MASTER_HEADERS.filter (fun h => ¬ t.headers.contains h) = [] →
      (∀ r ∈ t.rows, clean_str (r.lookup "Item Code") = "" ∧
        clean_str (r.lookup "Description") = "") →
      import_items_csv db t =
        .ok { processed := 0, skipped := 0, errors := [], db := db }) := by
  constructor
  · intro t rows hok r hr
    rw [parse_item_master_csv_text] at hok
    split at hok
    · cases hok
    · obtain ⟨a, _, hfa⟩ := List.mem_filterMap.mp (by
        cases hok
        exact hr)
      dsimp only at hfa
      by_cases hskip : (clean_str (a.lookup "Item Code") = "" ∧
          clean_str (a.lookup "Description") = "")
      · rw [if_pos hskip] at hfa
        cases hfa
      · rw [if_neg hskip] at hfa
        cases hfa
        exact hskip
  · intro db t hheaders hblank
    have hparse : parse_item_master_csv_text t = .ok [] := by
      rw [parse_item_master_csv_text]
      rw [if_neg (by rw [hheaders]; simp)]
      congr 1
      rw [List.filterMap_eq_nil_iff]
      intro a ha
      rw [if_pos (hblank a ha)]
    rw [import_items_csv, import_parse_csv, hparse]
    rfl

theorem C7_blank_row_skipped_witness :
    ¬(witnessRow.item_code = "" ∧ witnessRow.item_description = "") ∧
    import_items_csv emptyCatalog blankTable =
      .ok { processed := 0, skipped := 0, errors := [], db := emptyCatalog } :=
  ⟨C7_blank_row_skipped.1 witnessTable [witnessRow] (by decide) witnessRow (by decide),
   C7_blank_row_skipped.2 emptyCatalog blankTable (by decide) (by decide)⟩

/-- C8 counterexample: when both parsers fail, the error surfaced by the
dispatch is the pivoted parser's missing-header message, not the linear
parser's as the claim says. -/
theorem C8_counterexample :
    parse_item_master_csv_text badTable = .error
      "Missing expected headers in Item Master CSV: [Division, Item Code, Description, Unit, Rate, Region]" ∧
    parse_item_master_pivot_csv_text badTable = .error
      "Missing expected base headers in pivot Item Master CSV: [Item Code, Major Division, Description, Unit]" ∧
    import_parse_csv badTable = .error
      "Missing expected base headers in pivot Item Master CSV: [Item Code, Major Division, Description, Unit]" ∧
    ("Missing expected base headers in pivot Item Master CSV: [Item Code, Major Division, Description, Unit]"
      ≠ "Missing expected headers in Item Master CSV: [Division, Item Code, Description, Unit, Rate, Region]") := by
  refine ⟨by decide, by decide, by decide, by decide⟩

/-- C8 (amended): the importer tries the linear parser first and falls
back to the pivoted parser on failure; when both fail, the error reported
is the pivoted parser's message (the linear parser's error is discarded). -/
theorem C8_dispatch :
    (∀ (t : CSVTable) (rows : List ItemParsed),
      parse_item_master_csv_text t = .ok rows → import_parse_csv t = .ok rows) ∧
    (∀ (t : CSVTable) (e : String) (rows : List ItemParsed),
      parse_item_master_csv_text t = .error e →
      parse_item_master_pivot_csv_text t = .ok rows →
      import_parse_csv t = .ok rows) ∧
    (∀ (t : CSVTable) (e1 e2 : String),
      parse_item_master_csv_text t = .error e1 →
      parse_item_master_pivot_csv_text t = .error e2 →
      import_parse_csv t = .error e2) := by
  refine ⟨?_, ?_, ?_⟩
  · intro t rows h
    rw [import_parse_csv, h]
  · intro t e rows h1 h2
    rw [import_parse_csv, h1, h2]
  · intro t e1 e2 h1 h2
    rw [import_parse_csv, h1, h2]

theorem C8_dispatch_witness :
    import_parse_csv witnessTable = .ok [witnessRow] ∧
    import_parse_csv pivotOnly = .ok [pivotOnlyRow] ∧
    import_parse_csv badTable = .error
      "Missing expected base headers in pivot Item Master CSV: [Item Code, Major Division, Description, Unit]" :=
  ⟨C8_dispatch.1 witnessTable [witnessRow] (by decide),
   C8_dispatch.2.1 pivotOnly
     "Missing expected headers in Item Master CSV: [Division, Rate, Region]" [pivotOnlyRow]
     (by decide) (by decide),
   C8_dispatch.2.2 badTable
     "Missing expected headers in Item Master CSV: [Division, Item Code, Description, Unit, Rate, Region]"
     "Missing expected base headers in pivot Item Master CSV: [Item Code, Major Division, Description, Unit]"
     (by decide) (by decide)⟩

/-- The region-name normalization used on export never yields the legacy
spelling. -/
theorem renameRegion_ne (x : String) :
    (if x = "Cumilla Zone" then "Comilla Zone" else x) ≠ "Cumilla Zone" := by
  by_cases h : x = "Cumilla Zone"
  · rw [if_pos h]
    decide
  · rw [if_neg h]
    exact h

/-- C9 counterexample: the linear parser does NOT normalize the legacy
`Cumilla Zone` region spelling — the cell value is emitted unchanged. -/
theorem C9_counterexample :
    (parse_item_master_csv_text cumillaLinear).map (fun rows => rows.map (fun r => r.region)) =
      .ok ["Cumilla Zone"] ∧
    ("Cumilla Zone" : String) ≠ "Comilla Zone" := by
  exact ⟨by decide, by decide⟩

/-- Membership in a Python-dict-style update of the rates map. -/
theorem upsertAssoc_mem (l : List (String × Option ℚ)) (k : String) (v : Option ℚ)
    (rname : String) (w : Option ℚ) (hm : (rname, w) ∈ upsertAssoc l k v) :
    (∃ w', (rname, w') ∈ l) ∨ rname = k := by
  rw [upsertAssoc] at hm
  split at hm
  · obtain ⟨p, hp, he⟩ := List.mem_map.mp hm
    by_cases hpk : p.1 = k
    · rw [if_pos hpk] at he
      right
      exact ((Prod.mk.injEq _ _ _ _).mp he).1.symm
    · rw [if_neg hpk] at he
      left
      exact ⟨w, he ▸ hp⟩
  · rcases List.mem_append.mp hm with h | h
    · left; exact ⟨w, h⟩
    · right
      have : (rname, w) = (k, v) := by simpa using h
      exact ((Prod.mk.injEq _ _ _ _).mp this).1

/-- One export-grouping step preserves "no rate is keyed under the legacy
`Cumilla Zone` spelling". -/
theorem exportStep_no_cumilla (divs : List DivisionRec)
    (acc : List ((ℤ × String × String) × PivotRow)) (it : CatItem)
    (hacc : ∀ k row rname v, (k, row) ∈ acc → (rname, v) ∈ row.rates →
      rname ≠ "Cumilla Zone") :
    ∀ k row rname v, (k, row) ∈ exportStep divs acc it → (rname, v) ∈ row.rates →
      rname ≠ "Cumilla Zone" := by
  intro k row rname v hmem hrv
  rw [exportStep] at hmem
  dsimp only at hmem
  set org := (if it.organization = "" then "RHD" else it.organization) with horg
  set region := (if it.region = "Cumilla Zone" then "Comilla Zone" else it.region)
    with hregion
  have hregne : region ≠ "Cumilla Zone" := by
    rw [hregion]
    exact renameRegion_ne it.region
  split at hmem
  · obtain ⟨p, hp, he⟩ := List.mem_map.mp hmem
    by_cases hpk : p.1 = (it.division_id, it.item_code, org)
    · rw [if_pos hpk] at he
      have hrow : row = { p.2 with rates := upsertAssoc p.2.rates region it.rate } :=
        (((Prod.mk.injEq _ _ _ _).mp he).2).symm
      rw [hrow] at hrv
      rcases upsertAssoc_mem _ _ _ _ _ hrv with ⟨w', hw'⟩ | hreg
      · exact hacc p.1 p.2 rname w' (by simpa using hp) hw'
      · exact hreg ▸ hregne
    · rw [if_neg hpk] at he
      exact hacc k row rname v (he ▸ hp) hrv
  · rcases List.mem_append.mp hmem with h | h
    · exact hacc k row rname v h hrv
    · have hpair := List.mem_singleton.mp h
      have hrates : row.rates = [(region, it.rate)] :=
        congrArg (fun r => r.rates) ((Prod.mk.injEq _ _ _ _).mp hpair).2
      rw [hrates] at hrv
      have heq : rname = region := by
        have := List.mem_singleton.mp hrv
        exact ((Prod.mk.injEq _ _ _ _).mp this).1
      exact heq ▸ hregne

/-- The export grouping never keys a rate under `Cumilla Zone`. -/
theorem exportGroup_no_cumilla (divs : List DivisionRec) (items : List CatItem) :
    ∀ k row rname v, (k, row) ∈ exportGroup divs items → (rname, v) ∈ row.rates →
      rname ≠ "Cumilla Zone" := by
  rw [exportGroup]
  generalize hacc0 : ([] : List ((ℤ × String × String) × PivotRow)) = acc0
  have h0 : ∀ k row rname v, (k, row) ∈ acc0 → (rname, v) ∈ row.rates →
      rname ≠ "Cumilla Zone" := by
    intro k row rname v hmem _
    rw [← hacc0] at hmem
    cases hmem
  clear hacc0
  induction items generalizing acc0 with
  | nil => exact h0
  | cons it tl ih =>
    rw [List.foldl_cons]
    exact ih _ (exportStep_no_cumilla divs acc0 it h0)

/-- C9 (amended): the pivoted parser and the pivot export normalize the
legacy `Cumilla Zone` spelling to `Comilla Zone` (the parser via the
column header, the export via the stored region name, under which a lone
Cumilla item's rate is written), but the linear parser does not normalize
Region cell values. -/
theorem C9_normalization :
    (∀ (t : CSVTable) (rows : List ItemParsed),
      parse_item_master_pivot_csv_text t = .ok rows →
      ∀ r ∈ rows, r.region ≠ "Cumilla Zone") ∧
    (∀ (divs : List DivisionRec) (it : CatItem), it.region = "Cumilla Zone" →
      exportGroup divs [it] =
        [((it.division_id, it.item_code,
            if it.organization = "" then "RHD" else it.organization),
          { item_code := it.item_code
            division_name := divisionName divs it.division_id
            description := it.item_description
            unit := pyOrStr it.unit ""
            organization := if it.organization = "" then "RHD" else it.organization
            rates := [("Comilla Zone", it.rate)] })]) ∧
    (∀ (divs : List DivisionRec) (items : List CatItem) (k : ℤ × String × String)
      (row : PivotRow) (rname : String) (v : Option ℚ),
      (k, row) ∈ exportGroup divs items → (rname, v) ∈ row.rates →
      rname ≠ "Cumilla Zone") := by
  refine ⟨?_, ?_, fun divs items => exportGroup_no_cumilla divs items⟩
  · intro t rows hok r hr
    rw [parse_item_master_pivot_csv_text] at hok
    by_cases hm : pivot_missing t.headers ≠ []
    · rw [if_pos hm] at hok
      cases hok
    · rw [if_neg hm] at hok
      have hok' := Except.ok.inj hok
      rw [← hok'] at hr
      obtain ⟨a, _, hfa⟩ := List.mem_flatMap.mp hr
      dsimp only at hfa
      split at hfa
      · cases hfa
      · obtain ⟨region, hregmem, hgr⟩ := List.mem_map.mp hfa
        obtain ⟨h0, _, hrename⟩ := List.mem_map.mp hregmem
        have : r.region = region := by
          rw [← hgr]
        rw [this, ← hrename]
        exact renameRegion_ne h0
  · intro divs it h
    rw [exportGroup, List.foldl_cons, List.foldl_nil, exportStep]
    dsimp only
    rw [if_neg (by simp), if_pos h]
    rfl

theorem C9_normalization_witness :
    pivotOnlyRow.region ≠ "Cumilla Zone" ∧
    exportGroup [] [cumillaItem] =
      [((1, "X", "RHD"), cumillaPivotRow)] ∧
    ("Comilla Zone" : String) ≠ "Cumilla Zone" :=
  ⟨C9_normalization.1 pivotOnly [pivotOnlyRow] (by decide) pivotOnlyRow (by decide),
   by
    have h := C9_normalization.2.1 [] cumillaItem (by decide)
    simpa [cumillaItem, cumillaPivotRow, divisionName, pyOrStr] using h,
   C9_normalization.2.2 [] [cumillaItem] (1, "X", "RHD") cumillaPivotRow
     "Comilla Zone" (some 5) (by decide) (by decide)⟩

end RHD
